import Mathlib

/-!
Verification of the xilt concurrent log-ingestion pipeline: a shallow embedding of the
Go sources (record parser, reader, worker-pool sizer, writer, orchestrator) together
with theorems about the embedded definitions.
-/

namespace Xilt

/-! ## Data model: the parsed record (`parser.Log`, `src/internal/parser/parser.go` lines 15-28).
Go's `uint16`/`uint32` fields are modelled as `Nat` values; every assignment into them
in the embedding applies the truncation the Go conversion performs. -/

structure Log where
  IP : String
  Identity : String
  User : String
  Time : String
  TimestampUTC : String
  Method : String
  Route : String
  Params : String
  ResponseCode : Nat
  BytesSent : Nat
  Referer : String
  Agent : String
deriving DecidableEq, Repr

/-! ## Worker pool sizer (`getRoutineCount`, `src/unnamed/part_000` lines 23-27). -/

/-- Model of `getRoutineCount`: the Go code computes
`int(math.Max(1, math.Floor(float64(cfg.MaxMemoryUsageMB)/(cfg.AverageLogSizeMB*float64(cfg.BatchSize)))-reservedRoutines))`
with `reservedRoutines = 2`. The `float64` arithmetic is modelled by exact rational
arithmetic and `math.Floor` by the integer floor. The model is exact only where the
float computation stays finite and unaffected by rounding at the decisive steps (as in
the concrete instance below, where `0.001*5000` rounds to exactly `5.0`); it does not
capture IEEE-754 special values — a zero, subnormal or NaN `AverageLogSizeMB` makes the
Go quotient `±Inf`/`NaN`, and the final `int(...)` conversion of such values is
implementation-dependent per the Go spec, which is outside this embedding. -/
def getRoutineCount (maxMemoryUsageMB : Int) (averageLogSizeMB : Rat) (batchSize : Int) : Int :=
  max 1 (⌊(maxMemoryUsageMB : Rat) / (averageLogSizeMB * (batchSize : Rat))⌋ - 2)

/-- Modelled from the spec: `workerCount(maxMemoryBudgetMB, avgRecordSizeMB, batchSize) =
max(1, floor(maxMemoryBudgetMB / (avgRecordSizeMB * batchSize)) - reserved)` with `reserved = 2`. -/
def workerCountSpec (maxMemoryBudgetMB : Int) (avgRecordSizeMB : Rat) (batchSize : Int) : Int :=
  max 1 (⌊(maxMemoryBudgetMB : Rat) / (avgRecordSizeMB * (batchSize : Rat))⌋ - 2)

/-! ## Reader (`ReadAndBatch`, `src/internal/reader/reader.go` lines 29-76).
The `bufio.Scanner` input is modelled as the list of lines it yields before stopping,
plus a flag telling whether `scanner.Err()` reports a mid-stream read error afterwards. -/

/-- Outcome of `ReadAndBatch`: `ok` models a `nil` return, `ioError` models the
`error reading file` return built from `scanner.Err()`. -/
inductive ReadResult
  | ok
  | ioError
deriving DecidableEq, Repr

/-- The scan loop of `ReadAndBatch` (lines 56-70): non-empty lines are appended to the
current batch, a batch is sent downstream once it reaches `batchSize`, and the final
partial batch, if non-empty, is also sent. Returns the list of batches sent to
`batchChannel`, in order. -/
def readBatchesLoop (batchSize : Nat) (batch : List String) : List String → List (List String)
  | [] => if 0 < batch.length then [batch] else []
  | line :: rest =>
    if 0 < line.length then
      if (batch ++ [line]).length = batchSize then
        (batch ++ [line]) :: readBatchesLoop batchSize [] rest
      else
        readBatchesLoop batchSize (batch ++ [line]) rest
    else
      readBatchesLoop batchSize batch rest

/-- Model of `ReadAndBatch` after a successful open: runs the scan loop over the lines the
scanner yields (flushing the trailing partial batch) and only then checks `scanner.Err()`
(lines 72-75), so the mid-stream read error is surfaced after the flush. -/
def ReadAndBatch (batchSize : Nat) (lines : List String) (readErr : Bool) :
    List (List String) × ReadResult :=
  (readBatchesLoop batchSize [] lines, if readErr then ReadResult.ioError else ReadResult.ok)

/-! ## Writer (`InsertBatch`, `src/unnamed/part_003` lines 101-142).
The SQL connection is modelled by an oracle saying which `stmt.Exec` calls fail; the
`database/sql` transaction discipline is modelled explicitly: rows executed inside the
transaction are pending until `Commit`, `Rollback` discards them and finishes the
transaction, and `Commit` on a finished transaction fails (`ErrTxDone`) without
committing anything. -/

/-- Observable writer events, in program order: transaction begin, each `stmt.Exec`
(with success flag), `tx.Rollback`, `stmt.Close`, and the `tx.Commit` outcome
(`commitErr` models both a reported commit failure and `ErrTxDone` after rollback). -/
inductive WEvent
  | beginTx
  | execInsert (i : Nat) (ok : Bool)
  | rollback
  | stmtClose
  | commitErr
  | commitOk (n : Nat)
deriving DecidableEq, Repr

/-- The per-record insert loop (lines 121-130): records are executed in order and
accumulate as the transaction's pending rows; on the first failing `stmt.Exec` the
code reports the failure, rolls the transaction back and breaks out of the loop.
Returns (pending rows at loop exit, whether the transaction was rolled back, events). -/
def runInserts (fails : Nat → Bool) : Nat → List Log → List Log × Bool × List WEvent
  | _, [] => ([], false, [])
  | i, r :: rest =>
    if fails i then
      ([], true, [WEvent.execInsert i false, WEvent.rollback])
    else
      (r :: (runInserts fails (i + 1) rest).1, (runInserts fails (i + 1) rest).2.1,
        WEvent.execInsert i true :: (runInserts fails (i + 1) rest).2.2)

/-- Result of processing one parsed batch: the rows this batch adds to the database and
the writer events it produces. -/
structure BatchInsertResult where
  committed : List Log
  events : List WEvent
deriving DecidableEq, Repr

/-- One iteration of the `InsertBatch` loop over a batch (lines 104-141): begin the
transaction, run the insert loop, then unconditionally close the statement and attempt
`tx.Commit`. If the insert loop rolled the transaction back, the commit attempt fails
(`ErrTxDone`, reported as a commit failure) and no row of the batch is committed;
otherwise the pending rows are committed. -/
def insertOneBatch (fails : Nat → Bool) (batch : List Log) : BatchInsertResult :=
  if (runInserts fails 0 batch).2.1 then
    { committed := [],
      events := WEvent.beginTx :: (runInserts fails 0 batch).2.2 ++
        [WEvent.stmtClose, WEvent.commitErr] }
  else
    { committed := (runInserts fails 0 batch).1,
      events := WEvent.beginTx :: (runInserts fails 0 batch).2.2 ++
        [WEvent.stmtClose, WEvent.commitOk (runInserts fails 0 batch).1.length] }

/-- Model of the `InsertBatch` channel loop: processes the batches received from
`parsedLogChan` in order (batch `k` uses the failure oracle `fails k`), accumulating the
committed rows into the database state. Returns the final database rows and the event
trace of each batch. -/
def InsertBatch (fails : Nat → Nat → Bool) :
    Nat → List (List Log) → List Log → List Log × List (List WEvent)
  | _, [], dbRows => (dbRows, [])
  | k, b :: rest, dbRows =>
    ((InsertBatch fails (k + 1) rest (dbRows ++ (insertOneBatch (fails k) b).committed)).1,
      (insertOneBatch (fails k) b).events ::
        (InsertBatch fails (k + 1) rest (dbRows ++ (insertOneBatch (fails k) b).committed)).2)

/-! ## Orchestrator (`main`, `src/unnamed/part_000` lines 29-110).
The control flow of `main` after a successful config load and DB init is modelled as the
ordered list of pipeline steps it performs, parameterised by whether
`reader.ReadAndBatch` returned an error. -/

/-- The orchestration steps of `main`, in program order. -/
inductive OrchStep
  | initDB
  | spawnParseWorkers (n : Nat)
  | spawnWriter
  | runReader
  | reportReadError
  | closeBatchChannel
  | waitParseWorkers
  | closeParsedLogChannel
  | waitWriter
  | createIndexes
  | reportFinished
  | closeDB
deriving DecidableEq, Repr

/-- Model of `main` (lines 43-109): after the reader returns, an error (lines 90-93)
makes `main` print the error and `return` at once — only the deferred database close
still runs — while on success (lines 95-109) the channels are closed, the worker pool
and the writer are awaited, indexes are created and completion is reported. -/
def mainTrace (readerOk : Bool) (n : Nat) : List OrchStep :=
  [OrchStep.initDB, OrchStep.spawnParseWorkers n, OrchStep.spawnWriter, OrchStep.runReader] ++
    (if readerOk then
      [OrchStep.closeBatchChannel, OrchStep.waitParseWorkers, OrchStep.closeParsedLogChannel,
        OrchStep.waitWriter, OrchStep.createIndexes, OrchStep.reportFinished]
    else
      [OrchStep.reportReadError]) ++ [OrchStep.closeDB]

/-! ## Record parser (`src/internal/parser/parser.go`).
The compiled default pattern
`^(?<ip>\S*).* (?<identity>\S*) (?<user>\S*) \[(?<timestamp>.*)\]\s"(?<method>\S*)\s(?<route>\S*)\s(?<protocol>[^"]*)"\s(?<response>\S*)\s(?<bytes>\S*)\s?"?(?<referrer>[^"]*)"?\s?"?(?<agent>[^"]*)"?\s*$`
is embedded as a regex AST and matched with the leftmost-first, greedy backtracking
semantics of Go's `regexp` package (Perl-style submatch semantics; `\s` is
`[\t\n\f\r ]`, `.` is any character but newline). -/

/-- Single-character regex atoms used by the default pattern. -/
inductive RAtom
  | rchar (c : Char)
  | rany
  | rspace
  | rnonspace
  | rnotquote
deriving DecidableEq, Repr

/-- Whether a character matches an atom (`.` excludes newline; `\s` is `[\t\n\f\r ]`). -/
def atomMatches : RAtom → Char → Bool
  | RAtom.rchar c, d => c == d
  | RAtom.rany, d => d != '\n'
  | RAtom.rspace, d => d == ' ' || d == '\t' || d == '\n' || d == '\x0c' || d == '\r'
  | RAtom.rnonspace, d => !(d == ' ' || d == '\t' || d == '\n' || d == '\x0c' || d == '\r')
  | RAtom.rnotquote, d => d != '\"'

/-- Regex AST: atoms, greedy star/option over an atom, sequencing and numbered capture
groups — exactly the constructs the default pattern uses. -/
inductive Re
  | rempty
  | ratom (a : RAtom)
  | rstar (a : RAtom)
  | ropt (a : RAtom)
  | rseq (r s : Re)
  | rgroup (i : Nat) (r : Re)
deriving Repr

/-- Capture environment: group index to captured characters. -/
abbrev Caps := List (Nat × List Char)

/-- Greedy star over an atom with backtracking: consume as many matching characters as
possible, then back off one at a time until the continuation succeeds. -/
def starRun (a : RAtom) (k : List Char → Option Caps) : List Char → Option Caps
  | [] => k []
  | c :: cs =>
    if atomMatches a c then
      match starRun a k cs with
      | some r => some r
      | none => k (c :: cs)
    else k (c :: cs)

/-- Backtracking matcher in continuation-passing style, leftmost-first with greedy
quantifiers, recording capture-group contents on the successful path. -/
def reMatch : Re → List Char → Caps → (List Char → Caps → Option Caps) → Option Caps
  | Re.rempty, s, caps, k => k s caps
  | Re.ratom a, s, caps, k =>
    match s with
    | [] => none
    | c :: cs => if atomMatches a c then k cs caps else none
  | Re.rstar a, s, caps, k => starRun a (fun s2 => k s2 caps) s
  | Re.ropt a, s, caps, k =>
    match s with
    | [] => k s caps
    | c :: cs =>
      if atomMatches a c then
        match k cs caps with
        | some r => some r
        | none => k s caps
      else k s caps
  | Re.rseq r1 r2, s, caps, k => reMatch r1 s caps (fun s2 caps2 => reMatch r2 s2 caps2 k)
  | Re.rgroup i r1, s, caps, k =>
    reMatch r1 s caps (fun s2 caps2 => k s2 ((i, s.take (s.length - s2.length)) :: caps2))

/-- Sequence a list of regexes. -/
def rseqAll (rs : List Re) : Re := rs.foldr Re.rseq Re.rempty

/-- The default pattern `defaultRegex` of `parser.go` (line 50), transcribed
piece by piece; group numbers follow the order of the named groups:
1 ip, 2 identity, 3 user, 4 timestamp, 5 method, 6 route, 7 protocol, 8 response,
9 bytes, 10 referrer, 11 agent. -/
def defaultRegexAst : Re :=
  rseqAll
    [ Re.rgroup 1 (Re.rstar RAtom.rnonspace)
    , Re.rstar RAtom.rany
    , Re.ratom (RAtom.rchar ' ')
    , Re.rgroup 2 (Re.rstar RAtom.rnonspace)
    , Re.ratom (RAtom.rchar ' ')
    , Re.rgroup 3 (Re.rstar RAtom.rnonspace)
    , Re.ratom (RAtom.rchar ' ')
    , Re.ratom (RAtom.rchar '[')
    , Re.rgroup 4 (Re.rstar RAtom.rany)
    , Re.ratom (RAtom.rchar ']')
    , Re.ratom RAtom.rspace
    , Re.ratom (RAtom.rchar '\"')
    , Re.rgroup 5 (Re.rstar RAtom.rnonspace)
    , Re.ratom RAtom.rspace
    , Re.rgroup 6 (Re.rstar RAtom.rnonspace)
    , Re.ratom RAtom.rspace
    , Re.rgroup 7 (Re.rstar RAtom.rnotquote)
    , Re.ratom (RAtom.rchar '\"')
    , Re.ratom RAtom.rspace
    , Re.rgroup 8 (Re.rstar RAtom.rnonspace)
    , Re.ratom RAtom.rspace
    , Re.rgroup 9 (Re.rstar RAtom.rnonspace)
    , Re.ropt RAtom.rspace
    , Re.ropt (RAtom.rchar '\"')
    , Re.rgroup 10 (Re.rstar RAtom.rnotquote)
    , Re.ropt (RAtom.rchar '\"')
    , Re.ropt RAtom.rspace
    , Re.ropt (RAtom.rchar '\"')
    , Re.rgroup 11 (Re.rstar RAtom.rnotquote)
    , Re.ropt (RAtom.rchar '\"')
    , Re.rstar RAtom.rspace
    ]

/-- The submatches of the default pattern, one field per named capture group; `route`
is the raw request-target group (before the `?` split done in `parseLog`). -/
structure Submatches where
  ip : String
  identity : String
  user : String
  timestamp : String
  method : String
  route : String
  protocol : String
  response : String
  bytes : String
  referrer : String
  agent : String
deriving DecidableEq, Repr

/-- Captured characters of a group on the successful path (empty when absent). -/
def capLookup (caps : Caps) (i : Nat) : List Char :=
  match caps.lookup i with
  | some v => v
  | none => []

/-- Model of `p.regex.FindStringSubmatch(l)` for the compiled default pattern: since
the pattern is anchored by `^` and `$`, the match must start at the first character and
consume the whole line; on success the named submatches are returned. -/
def findStringSubmatch (l : String) : Option Submatches :=
  match reMatch defaultRegexAst l.toList []
      (fun s caps => if s.isEmpty then some caps else none) with
  | none => none
  | some caps =>
    some
      { ip := (capLookup caps 1).asString
        identity := (capLookup caps 2).asString
        user := (capLookup caps 3).asString
        timestamp := (capLookup caps 4).asString
        method := (capLookup caps 5).asString
        route := (capLookup caps 6).asString
        protocol := (capLookup caps 7).asString
        response := (capLookup caps 8).asString
        bytes := (capLookup caps 9).asString
        referrer := (capLookup caps 10).asString
        agent := (capLookup caps 11).asString }

/-- Digit-accumulation loop of `strconv.ParseUint` in base 10: fails on the first
non-digit character. -/
def parseUintDigits : List Char → Nat → Option Nat
  | [], acc => some acc
  | c :: cs, acc =>
    if c.isDigit then parseUintDigits cs (acc * 10 + (c.toNat - 48)) else none

/-- Model of Go `strconv.ParseUint(s, 10, bitSize)`: decimal digits only (no sign, no
underscores in base 10), empty input is an error, and a value that does not fit in
`bitSize` bits is a range error (Go returns a non-nil error in each case, which is all
the callers inspect). -/
def parseUint (s : String) (bitSize : Nat) : Option Nat :=
  if s.toList.isEmpty then none
  else
    match parseUintDigits s.toList 0 with
    | none => none
    | some v => if v < 2 ^ bitSize then some v else none

/-! ### Timestamp handling: `time.Parse("02/Jan/2006:15:04:05 -0700", ·)` followed by
`.UTC().Format("2006-01-02T15:04:05Z07:00")` (parser.go lines 109-115). -/

/-- The components produced by parsing a timestamp in the source layout. -/
structure ApacheTime where
  year : Nat
  month : Nat
  day : Nat
  hour : Nat
  minute : Nat
  second : Nat
  offsetSeconds : Int
deriving DecidableEq, Repr

/-- Case-insensitive three-letter month lookup, as Go's `time.Parse` month matching. -/
def monthFromName (a b c : Char) : Option Nat :=
  match a.toLower, b.toLower, c.toLower with
  | 'j', 'a', 'n' => some 1
  | 'f', 'e', 'b' => some 2
  | 'm', 'a', 'r' => some 3
  | 'a', 'p', 'r' => some 4
  | 'm', 'a', 'y' => some 5
  | 'j', 'u', 'n' => some 6
  | 'j', 'u', 'l' => some 7
  | 'a', 'u', 'g' => some 8
  | 's', 'e', 'p' => some 9
  | 'o', 'c', 't' => some 10
  | 'n', 'o', 'v' => some 11
  | 'd', 'e', 'c' => some 12
  | _, _, _ => none

/-- Gregorian leap-year test. -/
def isLeapYear (y : Nat) : Bool := (y % 4 == 0 && y % 100 != 0) || y % 400 == 0

/-- Number of days in a month, as used by `time.Parse` to validate the day. -/
def daysInMonth (m y : Nat) : Nat :=
  if m = 2 then (if isLeapYear y then 29 else 28)
  else if m = 4 ∨ m = 6 ∨ m = 9 ∨ m = 11 then 30
  else 31

/-- Two fixed decimal digits. -/
def twoDigits (a b : Char) : Option Nat :=
  if a.isDigit && b.isDigit then some ((a.toNat - 48) * 10 + (b.toNat - 48)) else none

/-- Four fixed decimal digits. -/
def fourDigits (a b c d : Char) : Option Nat :=
  if a.isDigit && b.isDigit && c.isDigit && d.isDigit then
    some ((a.toNat - 48) * 1000 + (b.toNat - 48) * 100 + (c.toNat - 48) * 10 + (d.toNat - 48))
  else none

/-- Model of `time.Parse` with the layout `02/Jan/2006:15:04:05 -0700`: fixed-width
fields in the exact layout shape, with the range validation `time.Parse` performs
(day within the month, hour below 24, minute and second below 60). -/
def parseApacheTimestamp (s : String) : Option ApacheTime :=
  match s.toList with
  | [d1, d2, '/', m1, m2, m3, '/', y1, y2, y3, y4, ':', h1, h2, ':', n1, n2, ':', s1, s2,
      ' ', sg, z1, z2, z3, z4] => do
    let day ← twoDigits d1 d2
    let month ← monthFromName m1 m2 m3
    let year ← fourDigits y1 y2 y3 y4
    let hour ← twoDigits h1 h2
    let minute ← twoDigits n1 n2
    let second ← twoDigits s1 s2
    let zoneHours ← twoDigits z1 z2
    let zoneMinutes ← twoDigits z3 z4
    let sign ← if sg = '+' then some (1 : Int) else if sg = '-' then some (-1 : Int) else none
    if 1 ≤ day ∧ day ≤ daysInMonth month year ∧ hour ≤ 23 ∧ minute ≤ 59 ∧ second ≤ 59 then
      some ⟨year, month, day, hour, minute, second,
        sign * ((zoneHours : Int) * 3600 + (zoneMinutes : Int) * 60)⟩
    else none
  | _ => none

/-- Days since 1970-01-01 of a civil date (years 0-9999): the standard era-based
computation, carried out on shifted naturals to avoid signed division. -/
def daysFromCivil (y m d : Nat) : Int :=
  let yShifted := y + 400
  let y2 := if m ≤ 2 then yShifted - 1 else yShifted
  let era := y2 / 400
  let yoe := y2 - era * 400
  let mp := if 2 < m then m - 3 else m + 9
  let doy := (153 * mp + 2) / 5 + d - 1
  let doe := yoe * 365 + yoe / 4 - yoe / 100 + doy
  ((era * 146097 + doe : Nat) : Int) - 719468 - 146097

/-- Civil date from days since 1970-01-01 (inverse of `daysFromCivil`, valid for dates
with years 0-9999), again on shifted naturals. -/
def civilFromDays (z : Int) : Nat × Nat × Nat :=
  let zz := (z + 719468 + 146097 * 5).toNat
  let era := zz / 146097
  let doe := zz % 146097
  let yoe := (doe - doe / 1460 + doe / 36524 - doe / 146096) / 1461
  let y := yoe + era * 400
  let doy := doe - (365 * yoe + yoe / 4 - yoe / 100)
  let mp := (5 * doy + 2) / 153
  let d := doy - (153 * mp + 2) / 5 + 1
  let m := if mp < 10 then mp + 3 else mp - 9
  (if m ≤ 2 then y + 1 - 2000 else y - 2000, m, d)

/-- Zero-padded two-digit decimal. -/
def pad2 (n : Nat) : String := if n < 10 then "0" ++ toString n else toString n

/-- Zero-padded four-digit decimal. -/
def pad4 (n : Nat) : String :=
  if n < 10 then "000" ++ toString n
  else if n < 100 then "00" ++ toString n
  else if n < 1000 then "0" ++ toString n
  else toString n

/-- Model of `parsedTime.UTC().Format("2006-01-02T15:04:05Z07:00")`: normalize the
parsed instant to UTC by subtracting the zone offset and print it in RFC-3339 shape
with the `Z` suffix a zero offset produces. -/
def formatTimestampUTC (t : ApacheTime) : String :=
  let total : Int := daysFromCivil t.year t.month t.day * 86400 +
    ((t.hour * 3600 + t.minute * 60 + t.second : Nat) : Int) - t.offsetSeconds
  let tod := (total.emod 86400).toNat
  let days := (total - (tod : Int)) / 86400
  let c := civilFromDays days
  pad4 c.1 ++ "-" ++ pad2 c.2.1 ++ "-" ++ pad2 c.2.2 ++ "T" ++
    pad2 (tod / 3600) ++ ":" ++ pad2 (tod % 3600 / 60) ++ ":" ++ pad2 (tod % 60) ++ "Z"

/-! ### `parseLog` and `ParseBatch`. -/

/-- The messages `parseLog` and `ParseBatch` report through the injected logger sink. -/
inductive Diag
  | invalidLogFormat
  | responseCodeErr
  | timeErr
  | bytesSentErr
deriving DecidableEq, Repr

/-- Default value constants of `parser.go` (lines 40-47). -/
def defaultParams : String := "-"

/-- Default referer (`parser.go` line 43). -/
def defaultReferer : String := "-"

/-- Default user agent (`parser.go` line 44). -/
def defaultAgent : String := "-"

/-- Model of `strings.Split(s, sep)` for a single-character separator, on character
lists: split around every occurrence of the separator. -/
def splitOnChar (sep : Char) : List Char → List (List Char)
  | [] => [[]]
  | c :: cs =>
    let r := splitOnChar sep cs
    if c = sep then [] :: r
    else
      match r with
      | h :: t => (c :: h) :: t
      | [] => [[c]]

/-- `parseLog` lines 92-99: the request target split on `?` (`strings.Split`); `uri[0]`
becomes the route. -/
def routeValue (target : String) : String :=
  match (splitOnChar '?' target.toList).map List.asString with
  | r :: _ => r
  | [] => ""

/-- `parseLog` lines 92-99: `uri[1]` becomes the params when the split has more than one
element, else the `"-"` default. -/
def paramsValue (target : String) : String :=
  match (splitOnChar '?' target.toList).map List.asString with
  | _ :: p :: _ => p
  | _ => defaultParams

/-- `parseLog` lines 101-107: response code via `ParseUint(·, 10, 16)`; the zero default
on failure, the parsed value (an exact fit in `uint16`) on success. -/
def responseCodeValue (s : String) : Nat :=
  match parseUint s 16 with
  | none => 0
  | some v => v

/-- The diagnostic reported on a response-code parse failure (`parser.go` line 104). -/
def responseCodeDiags (s : String) : List Diag :=
  match parseUint s 16 with
  | none => [Diag.responseCodeErr]
  | some _ => []

/-- `parseLog` lines 109-115: the normalized UTC timestamp on success, the empty-string
zero value on parse failure. -/
def timestampUTCValue (s : String) : String :=
  match parseApacheTimestamp s with
  | none => ""
  | some t => formatTimestampUTC t

/-- The diagnostic reported on a timestamp parse failure (`parser.go` line 112). -/
def timestampDiags (s : String) : List Diag :=
  match parseApacheTimestamp s with
  | none => [Diag.timeErr]
  | some _ => []

/-- `parseLog` lines 117-126: bytes sent via `ParseUint(·, 10, 64)`, assigned through the
Go conversion `uint32(bytesSent)` — truncation modulo `2^32` — on success; the zero
default on failure. -/
def bytesSentValue (s : String) : Nat :=
  match parseUint s 64 with
  | none => 0
  | some v => v % 2 ^ 32

/-- The diagnostic of the bytes-sent fallback (`parser.go` lines 119-123): reported only
when the parse failed and the field is not the `"-"` unknown marker. -/
def bytesSentDiags (s : String) : List Diag :=
  match parseUint s 64 with
  | none => if s ≠ "-" then [Diag.bytesSentErr] else []
  | some _ => []

/-- `parseLog` lines 128-131: the captured referer unless the capture is empty. -/
def refererValue (s : String) : String := if s ≠ "" then s else defaultReferer

/-- `parseLog` lines 133-136: the captured agent unless the capture is empty. -/
def agentValue (s : String) : String := if s ≠ "" then s else defaultAgent

/-- Model of `parseLog` (`parser.go` lines 71-139): match the line against the compiled
default pattern (returning `none`, Go's error, when it does not match), then fill the
record field by field with the sub-field fallbacks of the source (each helper above
models the corresponding block of the Go function). The second component is the list of
diagnostics reported to the injected logger sink, in emission order: response code,
then timestamp, then bytes sent. -/
def parseLog (l : String) : Option Log × List Diag :=
  match findStringSubmatch l with
  | none => (none, [])
  | some m =>
    (some
      { IP := m.ip
        Identity := m.identity
        User := m.user
        Time := m.timestamp
        TimestampUTC := timestampUTCValue m.timestamp
        Method := m.method
        Route := routeValue m.route
        Params := paramsValue m.route
        ResponseCode := responseCodeValue m.response
        BytesSent := bytesSentValue m.bytes
        Referer := refererValue m.referrer
        Agent := agentValue m.agent },
      responseCodeDiags m.response ++ timestampDiags m.timestamp ++ bytesSentDiags m.bytes)

/-- The per-batch loop body of `ParseBatch` (`parser.go` lines 147-156): parse each line
of the batch in order, skip the lines `parseLog` rejects, and collect the successfully
parsed records. -/
def parseBatchLogs : List String → List Log
  | [] => []
  | l :: rest =>
    match (parseLog l).1 with
    | none => parseBatchLogs rest
    | some r => r :: parseBatchLogs rest

/-! ### Concrete inputs used by the sample-based theorems and the witnesses. -/

/-- The valid Combined Log Format sample line of the spec and the parser tests. -/
def c2Line : String :=
  "127.0.0.1 user-identifier frank [10/Oct/2000:13:55:36 -0700] \"GET /apache_pb.gif?param1=test HTTP/1.0\" 200 2326 \"referrer\" \"agent\""

/-- The sample line with the bytes-sent field set to the `-` unknown marker. -/
def bytesDashLine : String :=
  "127.0.0.1 user-identifier frank [10/Oct/2000:13:55:36 -0700] \"GET /apache_pb.gif?param1=test HTTP/1.0\" 200 - \"referrer\" \"agent\""

/-- The sample line with the unparsable bytes-sent field `abc` (as in the parser test). -/
def bytesAbcLine : String :=
  "127.0.0.1 user-identifier frank [10/Oct/2000:13:55:36 -0700] \"GET /apache_pb.gif?param1=test HTTP/1.0\" 200 abc \"referrer\" \"agent\""

/-- The sample line with bytes-sent `4294967298` (that is `2^32 + 2`). -/
def bytesBigLine : String :=
  "127.0.0.1 user-identifier frank [10/Oct/2000:13:55:36 -0700] \"GET /apache_pb.gif?param1=test HTTP/1.0\" 200 4294967298 \"referrer\" \"agent\""

/-- The submatches of the sample line, with the bytes-sent capture as a parameter. -/
def sampleSubmatches (bytes : String) : Submatches :=
  { ip := "127.0.0.1"
    identity := "user-identifier"
    user := "frank"
    timestamp := "10/Oct/2000:13:55:36 -0700"
    method := "GET"
    route := "/apache_pb.gif?param1=test"
    protocol := "HTTP/1.0"
    response := "200"
    bytes := bytes
    referrer := "referrer"
    agent := "agent" }

/-- The parsed record of the sample line (the record the parser tests expect). -/
def sampleLog : Log :=
  { IP := "127.0.0.1"
    Identity := "user-identifier"
    User := "frank"
    Time := "10/Oct/2000:13:55:36 -0700"
    TimestampUTC := "2000-10-10T20:55:36Z"
    Method := "GET"
    Route := "/apache_pb.gif"
    Params := "param1=test"
    ResponseCode := 200
    BytesSent := 2326
    Referer := "referrer"
    Agent := "agent" }

/-! ## Theorems. -/

/-- C6: the worker-count function equals the spec formula
`max(1, floor(maxMemoryBudgetMB / (avgRecordSizeMB * batchSize)) - 2)` on all inputs,
and in particular `workerCount(100, 0.001, 5000) = 18`. -/
theorem getRoutineCount_c6 :
    (∀ (mem : Int) (avg : Rat) (batch : Int),
        getRoutineCount mem avg batch = workerCountSpec mem avg batch)
    ∧ getRoutineCount 100 (1 / 1000) 5000 = 18 := by
  refine ⟨fun _ _ _ => rfl, ?_⟩
  unfold getRoutineCount
  norm_num

/-- C4 counterexample: with 3 parse workers and a mid-run read error, the orchestrator's
trace contains neither the closing of the raw-batch channel nor any wait on the parse
workers or the Writer: the pipeline is not drained before the run ends, contrary to the
claim. -/
theorem mainTrace_c4_counterexample :
    OrchStep.closeBatchChannel ∉ mainTrace false 3
    ∧ OrchStep.waitParseWorkers ∉ mainTrace false 3
    ∧ OrchStep.waitWriter ∉ mainTrace false 3 := by
  decide

/-- C4 (amended): when the Reader terminates with a mid-run read error, the orchestrator
reports the error and returns immediately — it does not close the batch channel, does not
wait for the parse workers or the Writer, and does not report completion; only the
deferred database close still runs. The full drain sequence is performed only when the
reader finishes without error. -/
theorem mainTrace_c4_amended (n : Nat) :
    mainTrace false n =
      [OrchStep.initDB, OrchStep.spawnParseWorkers n, OrchStep.spawnWriter,
        OrchStep.runReader, OrchStep.reportReadError, OrchStep.closeDB]
    ∧ OrchStep.closeBatchChannel ∉ mainTrace false n
    ∧ OrchStep.waitParseWorkers ∉ mainTrace false n
    ∧ OrchStep.waitWriter ∉ mainTrace false n
    ∧ OrchStep.reportFinished ∉ mainTrace false n
    ∧ mainTrace true n =
      [OrchStep.initDB, OrchStep.spawnParseWorkers n, OrchStep.spawnWriter,
        OrchStep.runReader, OrchStep.closeBatchChannel, OrchStep.waitParseWorkers,
        OrchStep.closeParsedLogChannel, OrchStep.waitWriter, OrchStep.createIndexes,
        OrchStep.reportFinished, OrchStep.closeDB] := by
  refine ⟨rfl, ?_, ?_, ?_, ?_, rfl⟩ <;> simp [mainTrace]

/-- Dropping the empty lines from the scanner's output does not change the batches the
reader produces: empty lines are skipped and not counted toward the batch size. -/
theorem readBatchesLoop_filter_empty (bs : Nat) (lines : List String) :
    ∀ batch : List String,
      readBatchesLoop bs batch (lines.filter fun l => decide (0 < l.length)) =
        readBatchesLoop bs batch lines := by
  induction lines with
  | nil => intro batch; rfl
  | cons l rest ih =>
    intro batch
    by_cases h : 0 < l.length
    · rw [show (l :: rest).filter (fun l => decide (0 < l.length)) =
          l :: rest.filter (fun l => decide (0 < l.length)) by simp [List.filter_cons, h]]
      show readBatchesLoop bs batch (l :: _) = readBatchesLoop bs batch (l :: rest)
      rw [readBatchesLoop, readBatchesLoop, if_pos h, if_pos h]
      by_cases h2 : (batch ++ [l]).length = bs
      · rw [if_pos h2, if_pos h2, ih]
      · rw [if_neg h2, if_neg h2, ih]
    · rw [show (l :: rest).filter (fun l => decide (0 < l.length)) =
          rest.filter (fun l => decide (0 < l.length)) by simp [List.filter_cons, h]]
      rw [show readBatchesLoop bs batch (l :: rest) = readBatchesLoop bs batch rest by
        rw [readBatchesLoop, if_neg h]]
      exact ih batch

/-- Batch-size invariant of the reader loop: starting from a partial batch strictly below
the configured size, every batch handed downstream except possibly the last has exactly
the configured size, and every batch handed downstream is non-empty and at most the
configured size. -/
theorem readBatchesLoop_sizes (bs : Nat) (lines : List String) :
    ∀ batch : List String, batch.length < bs →
      (∀ x ∈ (readBatchesLoop bs batch lines).dropLast, x.length = bs)
      ∧ (∀ x ∈ readBatchesLoop bs batch lines, 0 < x.length ∧ x.length ≤ bs) := by
  induction lines with
  | nil =>
    intro batch hlt
    by_cases h : 0 < batch.length
    · rw [show readBatchesLoop bs batch [] = [batch] by rw [readBatchesLoop, if_pos h]]
      exact ⟨by intro x hx; simp [List.dropLast] at hx,
        by intro x hx; simp at hx; subst hx; exact ⟨h, Nat.le_of_lt hlt⟩⟩
    · rw [show readBatchesLoop bs batch [] = [] by rw [readBatchesLoop, if_neg h]]
      exact ⟨by intro x hx; simp at hx, by intro x hx; simp at hx⟩
  | cons l rest ih =>
    intro batch hlt
    by_cases h : 0 < l.length
    · by_cases h2 : (batch ++ [l]).length = bs
      · rw [show readBatchesLoop bs batch (l :: rest) =
            (batch ++ [l]) :: readBatchesLoop bs [] rest by
          rw [readBatchesLoop, if_pos h, if_pos h2]]
        have hbs : 0 < bs := Nat.lt_of_le_of_lt (Nat.zero_le _) hlt
        have ihr := ih [] (by simpa using hbs)
        constructor
        · intro x hx
          rcases ht : readBatchesLoop bs [] rest with _ | ⟨y, ys⟩
          · rw [ht] at hx
            simp [List.dropLast] at hx
          · rw [ht] at hx
            rw [show ((batch ++ [l]) :: y :: ys).dropLast =
                (batch ++ [l]) :: (y :: ys).dropLast from rfl] at hx
            rcases List.mem_cons.mp hx with hx1 | hx2
            · rw [hx1]; exact h2
            · exact ihr.1 x (by rw [ht]; exact hx2)
        · intro x hx
          rcases List.mem_cons.mp hx with hx1 | hx2
          · rw [hx1]
            refine ⟨?_, Nat.le_of_eq h2⟩
            simp
          · exact ihr.2 x hx2
      · rw [show readBatchesLoop bs batch (l :: rest) =
            readBatchesLoop bs (batch ++ [l]) rest by
          rw [readBatchesLoop, if_pos h, if_neg h2]]
        refine ih (batch ++ [l]) ?_
        have : (batch ++ [l]).length = batch.length + 1 := by simp
        omega
    · rw [show readBatchesLoop bs batch (l :: rest) = readBatchesLoop bs batch rest by
        rw [readBatchesLoop, if_neg h]]
      exact ih batch hlt

/-- C8: the Reader drops empty lines without counting them toward the batch size; every
batch handed downstream has exactly the configured size except possibly a final non-empty
partial batch; and a mid-stream read failure is surfaced as an error only after the
already-accumulated partial batch has been handed off (the batches sent do not depend on
whether the scanner subsequently reports an error). -/
theorem readAndBatch_c8 (bs : Nat) (hbs : 0 < bs) (lines : List String) (readErr : Bool) :
    (ReadAndBatch bs lines readErr).1 =
        (ReadAndBatch bs (lines.filter fun l => decide (0 < l.length)) readErr).1
    ∧ (∀ x ∈ (ReadAndBatch bs lines readErr).1.dropLast, x.length = bs)
    ∧ (∀ x ∈ (ReadAndBatch bs lines readErr).1, 0 < x.length ∧ x.length ≤ bs)
    ∧ (ReadAndBatch bs lines true).1 = (ReadAndBatch bs lines false).1
    ∧ ((ReadAndBatch bs lines readErr).2 = ReadResult.ioError ↔ readErr = true) := by
  have hsz := readBatchesLoop_sizes bs lines [] (by simpa using hbs)
  refine ⟨(readBatchesLoop_filter_empty bs lines []).symm, hsz.1, hsz.2, rfl, ?_⟩
  cases readErr <;> simp [ReadAndBatch]

/-- Witness for C8: batch size 2 over the scanner lines `["a", "", "b", "c"]` with a
mid-stream read error — the empty line is dropped, the batches are `[["a","b"], ["c"]]`
(one full, one final partial), and the error is surfaced. -/
theorem readAndBatch_c8_witness :
    (ReadAndBatch 2 ["a", "", "b", "c"] true).1 = [["a", "b"], ["c"]]
    ∧ (∀ x ∈ (ReadAndBatch 2 ["a", "", "b", "c"] true).1.dropLast, x.length = 2)
    ∧ (∀ x ∈ (ReadAndBatch 2 ["a", "", "b", "c"] true).1, 0 < x.length ∧ x.length ≤ 2)
    ∧ ((ReadAndBatch 2 ["a", "", "b", "c"] true).2 = ReadResult.ioError ↔ true = true) := by
  have h := readAndBatch_c8 2 (by decide) ["a", "", "b", "c"] true
  exact ⟨by decide, h.2.1, h.2.2.1, h.2.2.2.2⟩

/-- If none of a batch's inserts fails, the insert loop executes every record into the
transaction and does not roll back. -/
theorem runInserts_all_ok (fails : Nat → Bool) (batch : List Log) :
    ∀ i, (∀ j, j < batch.length → fails (i + j) = false) →
      (runInserts fails i batch).1 = batch ∧ (runInserts fails i batch).2.1 = false := by
  induction batch with
  | nil => intro i _; exact ⟨rfl, rfl⟩
  | cons r rest ih =>
    intro i h
    have h0 : fails i = false := by simpa using h 0 (Nat.succ_pos _)
    have hr := ih (i + 1) fun j hj => by
      rw [show i + 1 + j = i + (j + 1) by omega]
      exact h (j + 1) (by simpa using Nat.succ_lt_succ hj)
    rw [show runInserts fails i (r :: rest) =
        (r :: (runInserts fails (i + 1) rest).1, (runInserts fails (i + 1) rest).2.1,
          WEvent.execInsert i true :: (runInserts fails (i + 1) rest).2.2) by
      rw [runInserts, if_neg (by simp [h0])]]
    exact ⟨by rw [hr.1], hr.2⟩

/-- If some insert of the batch fails, the insert loop rolls the transaction back. -/
theorem runInserts_rolled_back (fails : Nat → Bool) (batch : List Log) :
    ∀ i, (∃ j, j < batch.length ∧ fails (i + j) = true) →
      (runInserts fails i batch).2.1 = true := by
  induction batch with
  | nil =>
    rintro i ⟨j, hj, -⟩
    simp at hj
  | cons r rest ih =>
    rintro i ⟨j, hj, hf⟩
    by_cases h0 : fails i
    · rw [runInserts, if_pos h0]
    · rw [runInserts, if_neg h0]
      have hj0 : j ≠ 0 := by
        rintro rfl
        exact h0 (by simpa using hf)
      refine ih (i + 1) ⟨j - 1, by simp at hj; omega, ?_⟩
      rw [show i + 1 + (j - 1) = i + j by omega]
      exact hf

/-- A rolled-back insert loop has emitted the rollback event. -/
theorem runInserts_rollback_mem (fails : Nat → Bool) (batch : List Log) :
    ∀ i, (runInserts fails i batch).2.1 = true →
      WEvent.rollback ∈ (runInserts fails i batch).2.2 := by
  induction batch with
  | nil => intro i h; simp [runInserts] at h
  | cons r rest ih =>
    intro i h
    by_cases h0 : fails i
    · rw [runInserts, if_pos h0]
      simp
    · rw [runInserts, if_neg h0] at h ⊢
      exact List.mem_cons_of_mem _ (ih (i + 1) h)

/-- The insert loop never emits a commit event: committing is done after the loop. -/
theorem runInserts_no_commitOk (fails : Nat → Bool) (batch : List Log) :
    ∀ i n, WEvent.commitOk n ∉ (runInserts fails i batch).2.2 := by
  induction batch with
  | nil => intro i n h; simp [runInserts] at h
  | cons r rest ih =>
    intro i n h
    by_cases h0 : fails i
    · rw [runInserts, if_pos h0] at h
      simp at h
    · rw [runInserts, if_neg h0] at h
      rcases List.mem_cons.mp h with h1 | h2
      · cases h1
      · exact ih (i + 1) n h2

/-- A batch with a failing insert commits nothing. -/
theorem insertOneBatch_committed_of_fail (fails : Nat → Bool) (batch : List Log)
    (h : ∃ j, j < batch.length ∧ fails j = true) :
    (insertOneBatch fails batch).committed = [] := by
  have hrb := runInserts_rolled_back fails batch 0 (by simpa using h)
  rw [insertOneBatch, if_pos hrb]

/-- A batch whose inserts all succeed commits exactly its records. -/
theorem insertOneBatch_committed_of_ok (fails : Nat → Bool) (batch : List Log)
    (h : ∀ j, j < batch.length → fails j = false) :
    (insertOneBatch fails batch).committed = batch := by
  have hok := runInserts_all_ok fails batch 0 (by simpa using h)
  rw [insertOneBatch, if_neg (by simp [hok.2])]
  exact hok.1

/-- The final database contents of the writer loop: the initial rows followed by each
batch's committed rows, in batch-arrival order — each batch's contribution depends only
on that batch and its own insert outcomes. -/
theorem insertBatch_committed_rows (fails : Nat → Nat → Bool) (batches : List (List Log)) :
    ∀ (k : Nat) (init : List Log),
      (InsertBatch fails k batches init).1 =
        init ++ ((batches.enumFrom k).map
          fun p => (insertOneBatch (fails p.1) p.2).committed).flatten := by
  induction batches with
  | nil => intro k init; simp [InsertBatch]
  | cons b rest ih =>
    intro k init
    rw [show InsertBatch fails k (b :: rest) init =
        ((InsertBatch fails (k + 1) rest (init ++ (insertOneBatch (fails k) b).committed)).1,
          (insertOneBatch (fails k) b).events ::
            (InsertBatch fails (k + 1) rest
              (init ++ (insertOneBatch (fails k) b).committed)).2) from rfl]
    rw [ih (k + 1) (init ++ (insertOneBatch (fails k) b).committed)]
    simp [List.enumFrom]

/-- C3: if any per-record insert of a batch fails, the transaction for that batch is
rolled back and zero records of that batch are committed, while the Writer continues
with the remaining batches: the final database contents are exactly the concatenation of
the per-batch contributions, the failed batch contributes nothing, and any batch whose
inserts all succeed contributes all of its records, unaffected by failures elsewhere. -/
theorem insertBatch_c3 (fails : Nat → Nat → Bool) (batches : List (List Log)) (k : Nat)
    (hk : k < batches.length)
    (hfail : ∃ i, i < (batches.get ⟨k, hk⟩).length ∧ fails k i = true) :
    (InsertBatch fails 0 batches []).1 =
        ((batches.enumFrom 0).map fun p => (insertOneBatch (fails p.1) p.2).committed).flatten
    ∧ (insertOneBatch (fails k) (batches.get ⟨k, hk⟩)).committed = []
    ∧ ∀ (j : Nat) (hj : j < batches.length),
        (∀ i, i < (batches.get ⟨j, hj⟩).length → fails j i = false) →
          (insertOneBatch (fails j) (batches.get ⟨j, hj⟩)).committed = batches.get ⟨j, hj⟩ := by
  refine ⟨by simpa using insertBatch_committed_rows fails batches 0 [], ?_, ?_⟩
  · exact insertOneBatch_committed_of_fail _ _ hfail
  · intro j hj hok
    exact insertOneBatch_committed_of_ok _ _ hok

/-- Witness for C3: two batches of sample records where the second insert of batch 0
fails — batch 0 commits nothing, batch 1 commits fully, and the final database holds
exactly batch 1's record. -/
theorem insertBatch_c3_witness :
    (0 < ([[sampleLog, sampleLog], [sampleLog]] : List (List Log)).length
      ∧ (∃ i, i < (([[sampleLog, sampleLog], [sampleLog]] : List (List Log)).get
            ⟨0, by decide⟩).length ∧ (fun k i => decide (k = 0 ∧ i = 1)) 0 i = true))
    ∧ (InsertBatch (fun k i => decide (k = 0 ∧ i = 1)) 0 [[sampleLog, sampleLog], [sampleLog]] []).1
        = [sampleLog]
    ∧ (insertOneBatch ((fun k i => decide (k = 0 ∧ i = 1)) 0) [sampleLog, sampleLog]).committed
        = [] := by
  refine ⟨⟨by decide, ⟨1, by decide, by decide⟩⟩, by decide, ?_⟩
  exact (insertBatch_c3 (fun k i => decide (k = 0 ∧ i = 1)) [[sampleLog, sampleLog], [sampleLog]]
    0 (by decide) ⟨1, by decide, by decide⟩).2.1

/-- C10: for every batch with a failing per-record insert, the Writer — after rolling the
transaction back — still closes the prepared statement and still attempts to commit the
already-rolled-back transaction, which fails and is reported as a commit failure; this
extra commit attempt never commits any record of the batch. -/
theorem insertOneBatch_c10 (fails : Nat → Bool) (batch : List Log)
    (hfail : ∃ i, i < batch.length ∧ fails i = true) :
    (insertOneBatch fails batch).committed = []
    ∧ (∃ evs, (insertOneBatch fails batch).events =
          WEvent.beginTx :: evs ++ [WEvent.stmtClose, WEvent.commitErr]
        ∧ WEvent.rollback ∈ evs)
    ∧ ∀ n, WEvent.commitOk n ∉ (insertOneBatch fails batch).events := by
  have hrb := runInserts_rolled_back fails batch 0 (by simpa using hfail)
  have hev : (insertOneBatch fails batch).events =
      WEvent.beginTx :: (runInserts fails 0 batch).2.2 ++
        [WEvent.stmtClose, WEvent.commitErr] := by
    rw [insertOneBatch, if_pos hrb]
  refine ⟨insertOneBatch_committed_of_fail fails batch hfail,
    ⟨(runInserts fails 0 batch).2.2, hev, runInserts_rollback_mem fails batch 0 hrb⟩, ?_⟩
  intro n hn
  rw [hev] at hn
  rcases List.mem_cons.mp hn with h1 | h2
  · cases h1
  · rcases List.mem_append.mp h2 with h3 | h4
    · exact runInserts_no_commitOk fails batch 0 n h3
    · simp at h4

/-- Witness for C10: a one-record batch whose only insert fails — nothing is committed
and the event trace ends with the statement close and the failing commit attempt after
the rollback. -/
theorem insertOneBatch_c10_witness :
    (∃ i, i < ([sampleLog] : List Log).length ∧ (fun i => decide (i = 0)) i = true)
    ∧ (insertOneBatch (fun i => decide (i = 0)) [sampleLog]).committed = []
    ∧ (insertOneBatch (fun i => decide (i = 0)) [sampleLog]).events =
        [WEvent.beginTx, WEvent.execInsert 0 false, WEvent.rollback,
          WEvent.stmtClose, WEvent.commitErr]
    ∧ ∀ n, WEvent.commitOk n ∉ (insertOneBatch (fun i => decide (i = 0)) [sampleLog]).events := by
  refine ⟨⟨0, by decide, by decide⟩, ?_, by decide, ?_⟩
  · exact (insertOneBatch_c10 (fun i => decide (i = 0)) [sampleLog] ⟨0, by decide, by decide⟩).1
  · exact (insertOneBatch_c10 (fun i => decide (i = 0)) [sampleLog] ⟨0, by decide, by decide⟩).2.2

/-- C1: for every input batch, the parse-worker output has length at most the batch
size, the output is exactly the sequence of parse results of an order-preserving
subsequence of the input lines (each of which matches the grammar when parsed alone:
non-matching lines are dropped, never replaced by a default record), and every output
record is the parse result of some line of the batch. -/
theorem parseBatch_c1 (batch : List String) :
    (parseBatchLogs batch).length ≤ batch.length
    ∧ (∃ ls : List String, ls.Sublist batch
        ∧ List.Forall₂ (fun l r => (parseLog l).1 = some r) ls (parseBatchLogs batch))
    ∧ ∀ r ∈ parseBatchLogs batch, ∃ l ∈ batch, (parseLog l).1 = some r := by
  induction batch with
  | nil =>
    refine ⟨Nat.le_refl 0, ⟨[], List.Sublist.refl _, List.Forall₂.nil⟩, ?_⟩
    intro r hr
    simp [parseBatchLogs] at hr
  | cons l rest ih =>
    obtain ⟨hlen, ⟨ls, hsub, hall⟩, hmem⟩ := ih
    cases hpl : (parseLog l).1 with
    | none =>
      have hstep : parseBatchLogs (l :: rest) = parseBatchLogs rest := by
        rw [parseBatchLogs, hpl]
      refine ⟨?_, ⟨ls, List.Sublist.cons _ hsub, ?_⟩, ?_⟩
      · rw [hstep]; exact Nat.le_succ_of_le hlen
      · rw [hstep]; exact hall
      · intro r hr
        rw [hstep] at hr
        obtain ⟨l2, hl2, hpl2⟩ := hmem r hr
        exact ⟨l2, List.mem_cons_of_mem _ hl2, hpl2⟩
    | some r0 =>
      have hstep : parseBatchLogs (l :: rest) = r0 :: parseBatchLogs rest := by
        rw [parseBatchLogs, hpl]
      refine ⟨?_, ⟨l :: ls, List.Sublist.cons₂ _ hsub, ?_⟩, ?_⟩
      · rw [hstep]; simpa using Nat.succ_le_succ hlen
      · rw [hstep]; exact List.Forall₂.cons hpl hall
      · intro r hr
        rw [hstep] at hr
        rcases List.mem_cons.mp hr with h1 | h2
        · exact ⟨l, List.mem_cons_self _ _, by rw [h1]; exact hpl⟩
        · obtain ⟨l2, hl2, hpl2⟩ := hmem r h2
          exact ⟨l2, List.mem_cons_of_mem _ hl2, hpl2⟩

/-- On a line the grammar accepts, `parseLog` returns the record and diagnostics built
field by field from the submatches. -/
theorem parseLog_of_submatch (l : String) (m : Submatches)
    (hm : findStringSubmatch l = some m) :
    parseLog l =
      (some
        { IP := m.ip
          Identity := m.identity
          User := m.user
          Time := m.timestamp
          TimestampUTC := timestampUTCValue m.timestamp
          Method := m.method
          Route := routeValue m.route
          Params := paramsValue m.route
          ResponseCode := responseCodeValue m.response
          BytesSent := bytesSentValue m.bytes
          Referer := refererValue m.referrer
          Agent := agentValue m.agent },
        responseCodeDiags m.response ++ timestampDiags m.timestamp ++
          bytesSentDiags m.bytes) := by
  unfold parseLog
  rw [hm]

/-- The response-code fallback never reports the bytes-sent diagnostic. -/
theorem bytesSentErr_notin_responseCodeDiags (s : String) :
    Diag.bytesSentErr ∉ responseCodeDiags s := by
  unfold responseCodeDiags
  cases parseUint s 16 <;> simp

/-- The timestamp fallback never reports the bytes-sent diagnostic. -/
theorem bytesSentErr_notin_timestampDiags (s : String) :
    Diag.bytesSentErr ∉ timestampDiags s := by
  unfold timestampDiags
  cases parseApacheTimestamp s <;> simp

/-- A successful `ParseUint` result fits in the requested bit width. -/
theorem parseUint_lt_of_some (s : String) (bits v : Nat) (h : parseUint s bits = some v) :
    v < 2 ^ bits := by
  unfold parseUint at h
  by_cases he : s.toList.isEmpty
  · rw [if_pos he] at h
    cases h
  · rw [if_neg he] at h
    rcases hd : parseUintDigits s.toList 0 with _ | w <;> rw [hd] at h
    · cases h
    · replace h : (if w < 2 ^ bits then some w else none) = some v := h
      by_cases hw : w < 2 ^ bits
      · rw [if_pos hw] at h
        cases h
        exact hw
      · rw [if_neg hw] at h
        cases h

/-- C5: for every grammar-matching line, a bytes-sent field of exactly `-` yields the
zero default silently (no bytes-sent diagnostic reaches the sink), while any other
unparsable bytes-sent value still lets the line parse successfully with the zero default
and does report the bytes-sent diagnostic to the sink. -/
theorem parseLog_c5 (l : String) (m : Submatches) (hm : findStringSubmatch l = some m) :
    (m.bytes = "-" →
        (∃ r, (parseLog l).1 = some r ∧ r.BytesSent = 0)
        ∧ Diag.bytesSentErr ∉ (parseLog l).2)
    ∧ (parseUint m.bytes 64 = none → m.bytes ≠ "-" →
        (∃ r, (parseLog l).1 = some r ∧ r.BytesSent = 0)
        ∧ Diag.bytesSentErr ∈ (parseLog l).2) := by
  have key := parseLog_of_submatch l m hm
  constructor
  · intro hb
    have hval : bytesSentValue m.bytes = 0 := by rw [hb]; rfl
    have hd : bytesSentDiags m.bytes = [] := by rw [hb]; rfl
    refine ⟨⟨_, by rw [key], hval⟩, ?_⟩
    rw [show (parseLog l).2 = responseCodeDiags m.response ++ timestampDiags m.timestamp ++
        bytesSentDiags m.bytes by rw [key]]
    rw [hd]
    simp [bytesSentErr_notin_responseCodeDiags, bytesSentErr_notin_timestampDiags]
  · intro hb64 hbne
    have hval : bytesSentValue m.bytes = 0 := by unfold bytesSentValue; rw [hb64]
    have hd : bytesSentDiags m.bytes = [Diag.bytesSentErr] := by
      unfold bytesSentDiags
      rw [hb64, if_pos hbne]
    refine ⟨⟨_, by rw [key], hval⟩, ?_⟩
    rw [show (parseLog l).2 = responseCodeDiags m.response ++ timestampDiags m.timestamp ++
        bytesSentDiags m.bytes by rw [key]]
    rw [hd]
    simp

set_option maxRecDepth 400000 in
/-- Witness for C5: the sample line with bytes-sent `-` parses with bytes 0 and no
bytes-sent diagnostic, and the sample line with bytes-sent `abc` parses with bytes 0 and
a reported bytes-sent diagnostic. -/
theorem parseLog_c5_witness :
    (findStringSubmatch bytesDashLine = some (sampleSubmatches "-")
      ∧ (sampleSubmatches "-").bytes = "-"
      ∧ (∃ r, (parseLog bytesDashLine).1 = some r ∧ r.BytesSent = 0)
      ∧ Diag.bytesSentErr ∉ (parseLog bytesDashLine).2)
    ∧ (findStringSubmatch bytesAbcLine = some (sampleSubmatches "abc")
      ∧ parseUint (sampleSubmatches "abc").bytes 64 = none
      ∧ (sampleSubmatches "abc").bytes ≠ "-"
      ∧ (∃ r, (parseLog bytesAbcLine).1 = some r ∧ r.BytesSent = 0)
      ∧ Diag.bytesSentErr ∈ (parseLog bytesAbcLine).2) := by
  constructor
  · refine ⟨by decide, rfl, ?_⟩
    exact (parseLog_c5 bytesDashLine (sampleSubmatches "-") (by decide)).1 rfl
  · refine ⟨by decide, by decide, by decide, ?_⟩
    exact (parseLog_c5 bytesAbcLine (sampleSubmatches "abc") (by decide)).2 (by decide)
      (by decide)

/-- C9: for every grammar-matching line whose bytes-sent field `ParseUint`-parses at
64-bit width to a value `v` at least `2^32`, parsing succeeds, no bytes-sent diagnostic
is emitted, and the stored bytes-sent value is `v mod 2^32` — the 64-bit value is
silently truncated into the unsigned 32-bit field instead of falling back to the zero
default with a diagnostic. -/
theorem parseLog_c9 (l : String) (m : Submatches) (v : Nat)
    (hm : findStringSubmatch l = some m) (hv : parseUint m.bytes 64 = some v)
    (hbig : 2 ^ 32 ≤ v) :
    (∃ r, (parseLog l).1 = some r ∧ r.BytesSent = v % 2 ^ 32)
    ∧ Diag.bytesSentErr ∉ (parseLog l).2
    ∧ 2 ^ 32 ≤ v ∧ v < 2 ^ 64 := by
  have key := parseLog_of_submatch l m hm
  have hval : bytesSentValue m.bytes = v % 2 ^ 32 := by unfold bytesSentValue; rw [hv]
  have hd : bytesSentDiags m.bytes = [] := by unfold bytesSentDiags; rw [hv]
  refine ⟨⟨_, by rw [key], hval⟩, ?_, hbig, parseUint_lt_of_some _ _ _ hv⟩
  rw [show (parseLog l).2 = responseCodeDiags m.response ++ timestampDiags m.timestamp ++
      bytesSentDiags m.bytes by rw [key]]
  rw [hd]
  simp [bytesSentErr_notin_responseCodeDiags, bytesSentErr_notin_timestampDiags]

set_option maxRecDepth 400000 in
/-- Witness for C9: the sample line with bytes-sent `4294967298 = 2^32 + 2` parses
successfully with stored bytes-sent `2` and no bytes-sent diagnostic. -/
theorem parseLog_c9_witness :
    (findStringSubmatch bytesBigLine = some (sampleSubmatches "4294967298")
      ∧ parseUint (sampleSubmatches "4294967298").bytes 64 = some 4294967298
      ∧ 2 ^ 32 ≤ 4294967298)
    ∧ ((∃ r, (parseLog bytesBigLine).1 = some r ∧ r.BytesSent = 4294967298 % 2 ^ 32)
      ∧ Diag.bytesSentErr ∉ (parseLog bytesBigLine).2
      ∧ 2 ^ 32 ≤ 4294967298 ∧ 4294967298 < 2 ^ 64) := by
  refine ⟨⟨by decide, by decide, by decide⟩, ?_⟩
  exact parseLog_c9 bytesBigLine (sampleSubmatches "4294967298") 4294967298 (by decide)
    (by decide) (by decide)

set_option maxRecDepth 400000 in
/-- C2: parsing the sample Combined Log Format line succeeds and yields IP `127.0.0.1`,
route `/apache_pb.gif`, params `param1=test`, status code 200, bytes sent 2326 and
normalized UTC timestamp `2000-10-10T20:55:36Z` (together with the remaining captured
fields of the sample record). -/
theorem parseLog_c2 : (parseLog c2Line).1 = some sampleLog := by decide

end Xilt
